import Mathlib

/-!
Shallow embedding of the poker hand engine (deck, hand evaluator, pot
builder, betting state machine, showdown) translated from the TypeScript
source, together with theorems settling the frozen claims about it.

Conventions of the embedding:
* JS numbers that hold chip amounts, bets and indices are modelled as `Int`
  (all arithmetic in the source stays integral on the reachable states the
  claims quantify over; comparisons and `Math.min`/`Math.floor` are mapped
  to `min` / `Int.fdiv`).
* Mutation of `this.state` is modelled by explicit state passing: every
  engine method becomes a function `GameState → ...` returning the updated
  state plus the list of events it emitted.
* Methods that can throw (`HandDeck.deal` on an exhausted deck, array
  accesses that could hit `undefined`) return `Option`; `none` models the
  thrown exception.
* The 30-second action timer and `Date.now()` are wall-clock facilities and
  are not modelled; no claim below depends on them.
-/

/-! ### Card types (src/game/types.ts) -/

inductive Suit where
  | hearts | diamonds | clubs | spades
deriving DecidableEq, BEq

inductive Rank where
  | r2 | r3 | r4 | r5 | r6 | r7 | r8 | r9 | r10 | rJ | rQ | rK | rA
deriving DecidableEq, BEq

/-- RANK_VALUES from types.ts: numeric values 2..14. -/
def rankValue : Rank → Nat
  | .r2 => 2 | .r3 => 3 | .r4 => 4 | .r5 => 5 | .r6 => 6 | .r7 => 7
  | .r8 => 8 | .r9 => 9 | .r10 => 10 | .rJ => 11 | .rQ => 12 | .rK => 13
  | .rA => 14

structure Card where
  rank : Rank
  suit : Suit
deriving DecidableEq, BEq

/-- SUITS constant from types.ts. -/
def SUITS : List Suit := [.hearts, .diamonds, .clubs, .spades]

/-- RANKS constant from types.ts. -/
def RANKS : List Rank :=
  [.r2, .r3, .r4, .r5, .r6, .r7, .r8, .r9, .r10, .rJ, .rQ, .rK, .rA]

/-- createDeck from deck.ts: 4 suits x 13 ranks, 52 unique cards. -/
def createDeck : List Card :=
  SUITS.flatMap (fun s => RANKS.map (fun r => Card.mk r s))

/-! ### Hand ranking (HandRank enum values from types.ts) -/

def HighCard : Nat := 0
def OnePair : Nat := 1
def TwoPair : Nat := 2
def ThreeOfAKind : Nat := 3
def Straight : Nat := 4
def Flush : Nat := 5
def FullHouse : Nat := 6
def FourOfAKind : Nat := 7
def StraightFlush : Nat := 8
def RoyalFlush : Nat := 9

/-- EvaluatedHand from types.ts (the display-only `name` field, a pure
function of `rank` via HAND_RANK_NAMES, is omitted). -/
structure EvaluatedHand where
  rank : Nat
  values : List Nat
  cards : List Card
deriving DecidableEq

/-! ### Hand evaluator (hand-evaluator.ts) -/

/-- The descending sort of the five cards in evaluateFiveCards
(`[...cards].sort((a, b) => RANK_VALUES[b.rank] - RANK_VALUES[a.rank])`).
Insertion sort with a non-strict relation models JS's stable sort; ties
(equal rank values) only affect the display order of the `cards` field. -/
def sortedDesc (cards : List Card) : List Card :=
  List.insertionSort (fun a b => rankValue b.rank ≤ rankValue a.rank) cards

/-- The descending value list of a five-card hand. -/
def valuesOf (cards : List Card) : List Nat :=
  (sortedDesc cards).map (fun c => rankValue c.rank)

/-- isFlush in evaluateFiveCards: `suits.every(s => s === suits[0])`. -/
def isFlushOf (cards : List Card) : Bool :=
  match (sortedDesc cards).map (fun c => c.suit) with
  | [] => true
  | s0 :: rest => rest.all (fun s => s == s0)

/-- checkStraight: consecutive descending run
(`values[i] - values[i+1] === 1` for every adjacent pair). -/
def checkStraight : List Nat → Bool
  | [] => true
  | [_] => true
  | a :: b :: rest => (a == b + 1) && checkStraight (b :: rest)

/-- checkWheelStraight: the values are exactly [14, 5, 4, 3, 2]. -/
def checkWheelStraight (values : List Nat) : Bool :=
  values == [14, 5, 4, 3, 2]

/-- The rank histogram of evaluateFiveCards (the `rankCounts` Map):
each distinct value paired with its multiplicity.  `dedup` may keep a
different representative order than JS Map insertion order, but the
subsequent total-order sort in `countsSorted` makes the result identical. -/
def rankCounts (values : List Nat) : List (Nat × Nat) :=
  values.dedup.map (fun v => (v, values.count v))

/-- The `counts` array of evaluateFiveCards: histogram entries sorted by
count descending, then value descending.  The comparator is a total order
on the (distinct-keyed) entries, so the result equals the JS sort. -/
def countsSorted (values : List Nat) : List (Nat × Nat) :=
  List.insertionSort
    (fun a b => b.2 < a.2 ∨ (a.2 = b.2 ∧ b.1 ≤ a.1)) (rankCounts values)

/-- evaluateFiveCards from hand-evaluator.ts.  Out-of-range histogram
accesses (`counts[1]`, `counts[2]`) use the default `(0, 0)`; the source
only reaches them when they exist. -/
def evaluateFiveCards (cards : List Card) : EvaluatedHand :=
  let sorted := sortedDesc cards
  let values := valuesOf cards
  let isFlush := isFlushOf cards
  let isStraight := checkStraight values
  let isWheelStraight := checkWheelStraight values
  let counts := countsSorted values
  let c0 := counts.getD 0 (0, 0)
  let c1 := counts.getD 1 (0, 0)
  let c2 := counts.getD 2 (0, 0)
  if isFlush && isStraight then
    if values.getD 0 0 == 14 && values.getD 1 0 == 13 then
      ⟨RoyalFlush, [14], sorted⟩
    else
      ⟨StraightFlush, [values.getD 0 0], sorted⟩
  else if isFlush && isWheelStraight then
    ⟨StraightFlush, [5], sorted⟩
  else if c0.2 == 4 then
    ⟨FourOfAKind, [c0.1, c1.1], sorted⟩
  else if c0.2 == 3 && c1.2 == 2 then
    ⟨FullHouse, [c0.1, c1.1], sorted⟩
  else if isFlush then
    ⟨Flush, values, sorted⟩
  else if isStraight then
    ⟨Straight, [values.getD 0 0], sorted⟩
  else if isWheelStraight then
    ⟨Straight, [5], sorted⟩
  else if c0.2 == 3 then
    ⟨ThreeOfAKind, c0.1 :: (counts.drop 1).map Prod.fst, sorted⟩
  else if c0.2 == 2 && c1.2 == 2 then
    ⟨TwoPair, [max c0.1 c1.1, min c0.1 c1.1, c2.1], sorted⟩
  else if c0.2 == 2 then
    ⟨OnePair,
      c0.1 :: List.insertionSort (fun a b => b ≤ a) ((counts.drop 1).map Prod.fst),
      sorted⟩
  else
    ⟨HighCard, values, sorted⟩

/-- The lexicographic part of compareHands: walk the two tiebreak vectors
in parallel (up to the shorter length) and return the first difference. -/
def cmpValues : List Nat → List Nat → Int
  | a :: as_, b :: bs =>
      if a ≠ b then (a : Int) - (b : Int) else cmpValues as_ bs
  | _, _ => 0

/-- compareHands from hand-evaluator.ts: positive iff `a` beats `b`. -/
def compareHands (a b : EvaluatedHand) : Int :=
  if a.rank ≠ b.rank then (a.rank : Int) - (b.rank : Int)
  else cmpValues a.values b.values

/-- getCombinations from hand-evaluator.ts: all C(n, k) combinations, in
the source's backtracking order (take the head first, then skip it). -/
def getCombinations : Nat → List α → List (List α)
  | 0, _ => [[]]
  | _ + 1, [] => []
  | k + 1, x :: xs =>
      (getCombinations k xs).map (fun c => x :: c) ++ getCombinations (k + 1) xs

/-- evaluateBestHand from hand-evaluator.ts: best five-card hand of the
input under compareHands (`> 0` keeps the first maximum in combo order).
`none` models the thrown error for fewer than 5 cards (no combination). -/
def evaluateBestHand (cards : List Card) : Option EvaluatedHand :=
  (getCombinations 5 cards).foldl
    (fun best combo =>
      let e := evaluateFiveCards combo
      match best with
      | none => some e
      | some b => if compareHands e b > 0 then some e else some b)
    none

/-! ### Player actions, players and game state (src/game/types.ts) -/

/-- PlayerAction from types.ts.  The TS union has five members; the
`unknown` constructor models an out-of-union string arriving at runtime
over the network, which the source's `switch` sends to its `default`
branch. -/
inductive PAction where
  | fold | check | call | raise | allIn | unknown (s : String)
deriving DecidableEq

/-- Player from types.ts. -/
structure EPlayer where
  id : String
  name : String
  seatIndex : Int
  chips : Int
  holeCards : List Card
  currentBet : Int
  totalBetThisRound : Int
  hasFolded : Bool
  isAllIn : Bool
  isSittingOut : Bool
  lastAction : Option PAction
  isConnected : Bool
deriving DecidableEq

/-- SidePot from types.ts. -/
structure SidePot where
  amount : Int
  eligiblePlayerIds : List String
deriving DecidableEq

/-- HandResult from types.ts. -/
structure HandResult where
  playerId : String
  amount : Int
  hand : Option EvaluatedHand
  potIndex : Nat
deriving DecidableEq

/-- PlayerPublicInfo from types.ts. -/
structure PlayerPublicInfo where
  id : String
  name : String
  seatIndex : Int
  chips : Int
  currentBet : Int
  hasFolded : Bool
  isAllIn : Bool
  lastAction : Option PAction
deriving DecidableEq

/-- ValidAction from types.ts. -/
structure ValidAction where
  action : PAction
  minAmount : Option Int := none
  maxAmount : Option Int := none
deriving DecidableEq

/-- ShowdownResult from types.ts. -/
structure ShowdownResult where
  playerId : String
  cards : List Card
  hand : Option EvaluatedHand
  winAmount : Int
deriving DecidableEq

inductive BRound where
  | preflop | flop | turn | river
deriving DecidableEq

/-- HandDeck from deck.ts: the shuffled card array plus the read cursor. -/
structure HandDeckState where
  cards : List Card
  position : Nat
deriving DecidableEq

/-- GameState from types.ts.  `actionTimerDeadline` (a wall-clock
timestamp) is not modelled. -/
structure GameState where
  roomCode : String
  hostId : String
  players : List EPlayer
  dealerSeatIndex : Int
  smallBlind : Int
  bigBlind : Int
  buyIn : Int
  handInProgress : Bool
  bettingRound : BRound
  communityCards : List Card
  pot : Int
  sidePots : List SidePot
  currentBet : Int
  minRaise : Int
  lastRaiseAmount : Int
  activePlayerIndex : Int
  winners : Option (List HandResult)
  handNumber : Int
  deck : Option HandDeckState
deriving DecidableEq

/-- GameEvent from game-engine.ts (timeDeadline of action_on omitted with
the timer). -/
inductive GameEvent where
  | hand_start (dealerSeat : Int) (handNumber : Int) (players : List PlayerPublicInfo)
  | hole_cards (playerId : String) (cards : List Card)
  | community (cards : List Card) (round : BRound)
  | action_on (playerId : String) (validActions : List ValidAction)
      (pot : Int) (currentBet : Int)
  | player_acted (playerId : String) (action : PAction) (amount : Int)
      (pot : Int) (playerChips : Int)
  | pot_update (pot : Int) (sidePots : List SidePot)
  | showdown (results : List ShowdownResult)
  | hand_end (players : List PlayerPublicInfo)
deriving DecidableEq

/-! ### Deck operations (deck.ts) -/

/-- HandDeck.deal: next card, or `none` for the thrown deck-exhausted
error. -/
def dealCard (d : HandDeckState) : Option (Card × HandDeckState) :=
  if h : d.position < d.cards.length then
    some (d.cards.get ⟨d.position, h⟩, { d with position := d.position + 1 })
  else
    none

/-- HandDeck.dealMultiple. -/
def dealMultipleCards : HandDeckState → Nat → Option (List Card × HandDeckState)
  | d, 0 => some ([], d)
  | d, n + 1 =>
    match dealCard d with
    | none => none
    | some (c, d1) =>
      match dealMultipleCards d1 n with
      | none => none
      | some (cs, d2) => some (c :: cs, d2)

/-- HandDeck.burn: deal and discard. -/
def burnCard (d : HandDeckState) : Option HandDeckState :=
  (dealCard d).map Prod.snd

/-! ### Engine helpers (game-engine.ts) -/

/-- Replace the (unique-id) player `pid` by `f` applied to it, modelling
in-place mutation of the player object found by id. -/
def updatePlayer (ps : List EPlayer) (pid : String) (f : EPlayer → EPlayer) :
    List EPlayer :=
  ps.map (fun q => if q.id = pid then f q else q)

/-- getActivePlayers: not sitting out, chips >= 0, connected. -/
def getActivePlayers (st : GameState) : List EPlayer :=
  st.players.filter
    (fun p => !p.isSittingOut && decide (p.chips ≥ 0) && p.isConnected)

/-- getPlayersWhoCanAct: not folded, not all-in, connected. -/
def getPlayersWhoCanAct (st : GameState) : List EPlayer :=
  st.players.filter (fun p => !p.hasFolded && !p.isAllIn && p.isConnected)

/-- getActivePlayer: the player at activePlayerIndex, if in range. -/
def getActivePlayer (st : GameState) : Option EPlayer :=
  if h : 0 ≤ st.activePlayerIndex ∧
      st.activePlayerIndex.toNat < st.players.length then
    some (st.players.get ⟨st.activePlayerIndex.toNat, h.2⟩)
  else
    none

/-- getPublicPlayers. -/
def getPublicPlayers (st : GameState) : List PlayerPublicInfo :=
  st.players.map (fun p =>
    { id := p.id, name := p.name, seatIndex := p.seatIndex, chips := p.chips,
      currentBet := p.currentBet, hasFolded := p.hasFolded,
      isAllIn := p.isAllIn, lastAction := p.lastAction })

/-- canStartHand: at least two connected, chip-positive, not-sitting-out
players and no hand in progress. -/
def canStartHand (st : GameState) : Bool :=
  decide ((st.players.filter
    (fun p => p.isConnected && decide (p.chips > 0) && !p.isSittingOut)).length ≥ 2)
  && !st.handInProgress

/-! ### Pot builder (calculatePots in game-engine.ts) -/

/-- The final value of the loop variable threaded through a list
(`prevLevel` in calculatePots). -/
def lastD : List Int → Int → Int
  | [], d => d
  | x :: xs, _ => lastD xs x

/-- The per-level loop of calculatePots: one pot per all-in level, with
`prevLevel` threaded through.  Each bettor contributes
`min(totalBetThisRound, level) - prevLevel` when positive; the pot is
pushed only when its amount is positive. -/
def buildLevelPots (bettors : List EPlayer) : List Int → Int → List SidePot
  | [], _ => []
  | level :: rest, prev =>
    let potAmount :=
      (bettors.map (fun p => max 0 (min p.totalBetThisRound level - prev))).sum
    let eligible :=
      (bettors.filter
        (fun p => !p.hasFolded && decide (p.totalBetThisRound ≥ level))).map
        (fun p => p.id)
    (if potAmount > 0 then [⟨potAmount, eligible⟩] else []) ++
      buildLevelPots bettors rest level

/-- calculatePots from game-engine.ts, as a function of the players list
and the current pot.  The initial sort of allInPlayers only feeds the
deduplicated, re-sorted `levels` list, so insertion sort gives the same
levels as the JS sort. -/
def calculatePots (players : List EPlayer) (pot : Int) : List SidePot :=
  let activePlayers := players.filter (fun p => !p.hasFolded)
  let allInPlayers :=
    List.insertionSort (fun a b => a.totalBetThisRound ≤ b.totalBetThisRound)
      (activePlayers.filter (fun p => p.isAllIn))
  if allInPlayers.isEmpty then
    [⟨pot, activePlayers.map (fun p => p.id)⟩]
  else
    let bettors := players.filter (fun p => decide (p.totalBetThisRound > 0))
    let levels :=
      List.insertionSort (fun a b => a ≤ b)
        ((allInPlayers.map (fun p => p.totalBetThisRound)).dedup)
    let levelPots := buildLevelPots bettors levels 0
    let processedAmount := (levelPots.map (fun sp => sp.amount)).sum
    let prevLevel := lastD levels 0
    let remaining := pot - processedAmount
    let pots := levelPots ++
      (if remaining > 0 then
        [⟨remaining,
          (activePlayers.filter
            (fun p => decide (p.totalBetThisRound > prevLevel) || !p.isAllIn)).map
            (fun p => p.id)⟩]
      else [])
    if pots.isEmpty then [⟨pot, activePlayers.map (fun p => p.id)⟩] else pots

/-! ### Showdown helpers (showdown in game-engine.ts) -/

/-- The per-winner award of the pot-splitting loop:
`share + (i === 0 ? remainder : 0)` with `share = Math.floor(amount / n)`
and `remainder = amount - share * n`. -/
def winAmountAt (amount : Int) (n : Nat) (i : Nat) : Int :=
  let share := Int.fdiv amount (n : Int)
  share + (if i = 0 then amount - share * (n : Int) else 0)

/-- One iteration of showdown's per-pot loop, threading the players list,
the accumulated HandResults and the accumulated ShowdownResults.  The
source captures `notFolded` once and mutates the shared player objects;
since fold flags and hole cards are not mutated inside the loop,
recomputing the eligible set from the running list is equivalent. -/
def showdownPotStep (communityCards : List Card) (potIdx : Nat) (pot : SidePot)
    (acc : List EPlayer × List HandResult × List ShowdownResult) :
    List EPlayer × List HandResult × List ShowdownResult :=
  let (players, handResults, results) := acc
  let eligible := players.filter
    (fun p => !p.hasFolded && pot.eligiblePlayerIds.contains p.id)
  let evaluations := eligible.filterMap (fun p =>
    let allCards := p.holeCards ++ communityCards
    if allCards.length ≥ 5 then
      (evaluateBestHand allCards).map (fun h => (p, h))
    else none)
  match evaluations with
  | [] => acc
  | _ :: _ =>
    let sortedEvals :=
      List.insertionSort (fun a b => compareHands a.2 b.2 ≥ 0) evaluations
    match sortedEvals with
    | [] => acc
    | e0 :: _ =>
      let winners := sortedEvals.filter (fun e => compareHands e.2 e0.2 = 0)
      let n := winners.length
      let players1 := winners.enum.foldl
        (fun ps iw =>
          updatePlayer ps iw.2.1.id
            (fun q => { q with chips := q.chips + winAmountAt pot.amount n iw.1 }))
        players
      let handResults1 := handResults ++ winners.enum.map
        (fun iw => (⟨iw.2.1.id, winAmountAt pot.amount n iw.1, some iw.2.2, potIdx⟩ :
          HandResult))
      let results1 := sortedEvals.foldl
        (fun rs e =>
          if rs.any (fun r => r.playerId = e.1.id) then rs
          else
            rs ++ [⟨e.1.id, e.1.holeCards, some e.2,
              ((handResults1.find? (fun h => h.playerId = e.1.id)).map
                (fun h => h.amount)).getD 0⟩])
        results
      (players1, handResults1, results1)

/-- endHand from game-engine.ts. -/
def endHand (st : GameState) : GameState × List GameEvent :=
  let st1 := { st with
    handInProgress := false
    activePlayerIndex := -1
    players := st.players.filter (fun p => p.isConnected || decide (p.chips > 0)) }
  (st1, [GameEvent.hand_end (getPublicPlayers st1)])

/-- showdown from game-engine.ts: build the side pots, award each pot to
the best eligible hand(s), record winners, emit the showdown event and
finish the hand. -/
def showdownStep (st : GameState) : GameState × List GameEvent :=
  let pots := calculatePots st.players st.pot
  let (players1, handResults, results) :=
    pots.enum.foldl
      (fun acc ip => showdownPotStep st.communityCards ip.1 ip.2 acc)
      (st.players, [], [])
  let st1 := { st with players := players1, winners := some handResults }
  let (st2, evs) := endHand st1
  (st2, GameEvent.showdown results :: evs)

/-- endHandFold from game-engine.ts: award the whole pot to the last
non-folded player (when there is one) without a showdown. -/
def endHandFold (winner : Option EPlayer) (st : GameState) :
    GameState × List GameEvent :=
  match winner with
  | some w =>
    let st1 := { st with
      players := updatePlayer st.players w.id
        (fun q => { q with chips := q.chips + st.pot }),
      winners := some [⟨w.id, st.pot, none, 0⟩] }
    let ev := GameEvent.showdown [⟨w.id, [], none, st.pot⟩]
    let (st2, evs) := endHand st1
    (st2, ev :: evs)
  | none => endHand st

/-! ### Betting helpers (game-engine.ts) -/

/-- JS `%` (remainder, sign of the dividend).  All in-range uses below have
a non-negative dividend, where this agrees with euclidean mod. -/
def jsMod (a b : Int) : Int := Int.tmod a b

/-- JS array indexing: `undefined` out of range (including negative). -/
def listGetInt (l : List α) (i : Int) : Option α :=
  if 0 ≤ i then l.get? i.toNat else none

/-- getValidActions from game-engine.ts. -/
def getValidActions (st : GameState) (player : EPlayer) : List ValidAction :=
  let toCall := st.currentBet - player.currentBet
  let acts : List ValidAction := [⟨PAction.fold, none, none⟩]
  let acts := acts ++
    (if toCall ≤ 0 then [(⟨PAction.check, none, none⟩ : ValidAction)]
     else if toCall ≥ player.chips then
       [(⟨PAction.call, some player.chips, some player.chips⟩ : ValidAction)]
     else [(⟨PAction.call, some toCall, some toCall⟩ : ValidAction)])
  acts ++
    (if player.chips > toCall then
      let minRaiseTotal := st.currentBet + st.minRaise
      let minRaiseAmount := min (minRaiseTotal - player.currentBet) player.chips
      let maxRaiseAmount := player.chips
      if minRaiseAmount ≤ maxRaiseAmount then
        [(⟨PAction.raise, some minRaiseAmount, some maxRaiseAmount⟩ : ValidAction)]
      else []
    else [])

/-- findNextActor from game-engine.ts: scan the seats after the current
actor for the first non-folded, non-all-in player who either still owes
chips this round or (preflop) has not acted yet. -/
def findNextActor (st : GameState) : Option EPlayer :=
  let aps := getActivePlayers st
  match getActivePlayer st with
  | none => none
  | some cp =>
    let cur : Nat :=
      match aps.findIdx? (fun p => p.id = cp.id) with
      | some i => i
      | none =>
        match aps.findIdx? (fun p => p.seatIndex ≥ cp.seatIndex) with
        | some i => i
        | none => 0
    (((List.range aps.length).map (fun i => i + 1)).filterMap
        (fun i => aps.get? ((cur + i) % aps.length))).find?
      (fun p =>
        !p.hasFolded && !p.isAllIn &&
        (decide (p.currentBet < st.currentBet) ||
         (decide (st.bettingRound = BRound.preflop) && p.lastAction.isNone)))

/-- The scanning loop of findFirstActor.  `none` models the exception a
negative index would raise (`undefined.hasFolded`); `some none` means no
actor was found (the source then leaves activePlayerIndex untouched). -/
def findFirstActorGo (aps : List EPlayer) (startIdx : Int) :
    Nat → Nat → Option (Option EPlayer)
  | _, 0 => some none
  | i, r + 1 =>
    match listGetInt aps (jsMod (startIdx + (i : Int)) (aps.length : Int)) with
    | none => none
    | some p =>
      if !p.hasFolded && !p.isAllIn then some (some p)
      else findFirstActorGo aps startIdx (i + 1) r

/-- findFirstActor from game-engine.ts. -/
def findFirstActor (st : GameState) : Option GameState :=
  let aps := getActivePlayers st
  let dealerIdx : Int :=
    match aps.findIdx? (fun p => p.seatIndex = st.dealerSeatIndex) with
    | some i => (i : Int)
    | none => -1
  let n : Int := (aps.length : Int)
  let startIdx : Int :=
    if st.bettingRound = BRound.preflop then
      if aps.length = 2 then dealerIdx else jsMod (dealerIdx + 3) n
    else jsMod (dealerIdx + 1) n
  match findFirstActorGo aps startIdx 0 aps.length with
  | none => none
  | some none => some st
  | some (some p) =>
    some { st with
      activePlayerIndex := (st.players.findIdx (fun q => q.id = p.id) : Int) }

/-- advanceDealer from game-engine.ts. -/
def advanceDealer (st : GameState) : GameState :=
  let aps := getActivePlayers st
  match aps with
  | [] => st
  | a0 :: _ =>
    if st.dealerSeatIndex = -1 then { st with dealerSeatIndex := a0.seatIndex }
    else
      let currentIdx : Int :=
        match aps.findIdx? (fun p => p.seatIndex = st.dealerSeatIndex) with
        | some i => (i : Int)
        | none => -1
      match listGetInt aps (jsMod (currentIdx + 1) (aps.length : Int)) with
      | some p => { st with dealerSeatIndex := p.seatIndex }
      | none => st

/-- postBlind from game-engine.ts. -/
def postBlind (st : GameState) (player : EPlayer) (amount : Int) : GameState :=
  let actualAmount := min amount player.chips
  { st with
    players := updatePlayer st.players player.id (fun q =>
      { q with
        chips := q.chips - actualAmount
        currentBet := actualAmount
        totalBetThisRound := actualAmount
        isAllIn := if q.chips - actualAmount = 0 then true else q.isAllIn }),
    pot := st.pot + actualAmount }

/-- postBlinds from game-engine.ts.  `none` models the exception raised by
indexing with a negative seat position (dealer not among the active
players), which startHand's flow rules out. -/
def postBlinds (st : GameState) : Option GameState :=
  let aps := getActivePlayers st
  if aps.length < 2 then some st
  else
    let dealerIdx : Int :=
      match aps.findIdx? (fun p => p.seatIndex = st.dealerSeatIndex) with
      | some i => (i : Int)
      | none => -1
    let n : Int := (aps.length : Int)
    let sbIdx : Int :=
      if aps.length = 2 then dealerIdx else jsMod (dealerIdx + 1) n
    let bbIdx : Int :=
      if aps.length = 2 then jsMod (dealerIdx + 1) n else jsMod (dealerIdx + 2) n
    match listGetInt aps sbIdx, listGetInt aps bbIdx with
    | some sbPlayer, some bbPlayer =>
      let st1 := postBlind st sbPlayer st.smallBlind
      let st2 := postBlind st1 bbPlayer st.bigBlind
      some { st2 with currentBet := st2.bigBlind }
    | _, _ => none

/-- dealHoleCards from game-engine.ts, iterating over the active players
(`none` models a thrown deck error or a missing deck at `this.deck!`). -/
def dealHoleCardsGo : List EPlayer → GameState → Option (GameState × List GameEvent)
  | [], st => some (st, [])
  | p :: rest, st =>
    if p.hasFolded then dealHoleCardsGo rest st
    else
      match st.deck with
      | none => none
      | some d =>
        match dealMultipleCards d 2 with
        | none => none
        | some (cs, d1) =>
          let st1 := { st with
            deck := some d1
            players := updatePlayer st.players p.id
              (fun q => { q with holeCards := cs }) }
          (dealHoleCardsGo rest st1).map
            (fun se => (se.1, GameEvent.hole_cards p.id cs :: se.2))

/-- dealHoleCards from game-engine.ts. -/
def dealHoleCards (st : GameState) : Option (GameState × List GameEvent) :=
  dealHoleCardsGo (getActivePlayers st) st

/-- dealCommunityCards from game-engine.ts: burn one card, then deal 3
(flop) or 1 (turn, river); the default branch returns after the burn. -/
def dealCommunityCards (st : GameState) (round : BRound) :
    Option (GameState × List GameEvent) :=
  match st.deck with
  | none => some (st, [])
  | some d =>
    match burnCard d with
    | none => none
    | some d1 =>
      match round with
      | BRound.preflop => some ({ st with deck := some d1 }, [])
      | BRound.flop =>
        match dealMultipleCards d1 3 with
        | none => none
        | some (cs, d2) =>
          let st1 := { st with
            deck := some d2
            communityCards := st.communityCards ++ cs }
          some (st1, [GameEvent.community st1.communityCards round])
      | BRound.turn =>
        match dealMultipleCards d1 1 with
        | none => none
        | some (cs, d2) =>
          let st1 := { st with
            deck := some d2
            communityCards := st.communityCards ++ cs }
          some (st1, [GameEvent.community st1.communityCards round])
      | BRound.river =>
        match dealMultipleCards d1 1 with
        | none => none
        | some (cs, d2) =>
          let st1 := { st with
            deck := some d2
            communityCards := st.communityCards ++ cs }
          some (st1, [GameEvent.community st1.communityCards round])

/-- getNextBettingRound from game-engine.ts. -/
def nextBettingRound : BRound → Option BRound
  | BRound.preflop => some BRound.flop
  | BRound.flop => some BRound.turn
  | BRound.turn => some BRound.river
  | BRound.river => none

/-! ### handleAction (game-engine.ts lines 371-472) -/

/-- The raise amount of handleAction's raise branch:
`action === 'all-in' || (amount && amount >= chips) ? chips : (amount || 0)`. -/
def raiseAmountOf (action : PAction) (amount : Option Int) (chips : Int) : Int :=
  if action = PAction.allIn then chips
  else
    match amount with
    | some a => if a ≠ 0 ∧ a ≥ chips then chips else a
    | none => 0

/-- The raise/all-in case of handleAction's switch: validate the amount
(allowing any all-in), update minRaise/lastRaiseAmount on a full raise,
move the chips and lift currentBet. -/
def applyRaise (st : GameState) (player : EPlayer) (action : PAction)
    (amount : Option Int) : Option (GameState × GameEvent) :=
  let raiseAmount := raiseAmountOf action amount player.chips
  let minRaiseTotal := st.currentBet + st.minRaise
  let minAllowedBet := minRaiseTotal - player.currentBet
  if raiseAmount < minAllowedBet ∧ raiseAmount < player.chips then none
  else
    let newBet := player.currentBet + raiseAmount
    let raiseOver := newBet - st.currentBet
    let st1 :=
      if raiseOver > 0 ∧ raiseOver ≥ st.minRaise then
        { st with lastRaiseAmount := raiseOver, minRaise := raiseOver }
      else st
    let chips1 := player.chips - raiseAmount
    let la := if chips1 = 0 then PAction.allIn else PAction.raise
    let st2 := { st1 with
      players := updatePlayer st1.players player.id (fun q =>
        { q with
          chips := chips1
          currentBet := newBet
          totalBetThisRound := q.totalBetThisRound + raiseAmount
          isAllIn := if chips1 = 0 then true else q.isAllIn
          lastAction := some la }),
      pot := st1.pot + raiseAmount,
      currentBet := if newBet > st1.currentBet then newBet else st1.currentBet }
    some (st2, GameEvent.player_acted player.id la newBet st2.pot chips1)

/-- The validation-and-switch part of handleAction (up to and including
the player_acted emission).  `none` models `return false`: unknown or
inactive player, check against a bet, or an under-min non-all-in raise. -/
def handleActionStep (st : GameState) (playerId : String) (action : PAction)
    (amount : Option Int) : Option (GameState × GameEvent) :=
  match st.players.find? (fun p => p.id = playerId) with
  | none => none
  | some player =>
    match getActivePlayer st with
    | none => none
    | some activePlayer =>
      if activePlayer.id ≠ playerId then none
      else
        let toCall := st.currentBet - player.currentBet
        match action with
        | PAction.fold =>
          let st1 := { st with
            players := updatePlayer st.players playerId
              (fun q => { q with
                hasFolded := true
                lastAction := some PAction.fold }) }
          some (st1, GameEvent.player_acted playerId PAction.fold
            player.currentBet st1.pot player.chips)
        | PAction.check =>
          if toCall > 0 then none
          else
            let st1 := { st with
              players := updatePlayer st.players playerId
                (fun q => { q with lastAction := some PAction.check }) }
            some (st1, GameEvent.player_acted playerId PAction.check
              player.currentBet st1.pot player.chips)
        | PAction.call =>
          let callAmount := min toCall player.chips
          let chips1 := player.chips - callAmount
          let st1 := { st with
            players := updatePlayer st.players playerId (fun q =>
              { q with
                chips := chips1
                currentBet := q.currentBet + callAmount
                totalBetThisRound := q.totalBetThisRound + callAmount
                lastAction := some PAction.call
                isAllIn := if chips1 = 0 then true else q.isAllIn }),
            pot := st.pot + callAmount }
          some (st1, GameEvent.player_acted playerId PAction.call
            (player.currentBet + callAmount) st1.pot chips1)
        | PAction.raise => applyRaise st player action amount
        | PAction.allIn => applyRaise st player action amount
        | PAction.unknown _ => none

/-! ### Round flow (mutually recursive, fuel-bounded)

advanceToNextRound recurses through the deal-out fast path and
startBettingRound can skip straight back to advanceToNextRound; the
recursion is bounded by the betting-round progression, made explicit here
with a fuel argument (`none` on fuel exhaustion, never reached from the
theorems below). -/

/-- Which of the three mutually recursive round-flow methods is being
entered; merging them into one fuel-indexed function keeps the recursion
structural. -/
inductive FlowCall where
  | prompt | startRound | advanceRound

def roundFlow : Nat → FlowCall → GameState → Option (GameState × List GameEvent)
  | 0, _, _ => none
  | fuel + 1, FlowCall.prompt, st =>
    match getActivePlayer st with
    | none => roundFlow fuel FlowCall.advanceRound st
    | some player =>
      some (st,
        [GameEvent.action_on player.id (getValidActions st player)
          st.pot st.currentBet])
  | fuel + 1, FlowCall.startRound, st =>
    let reset :=
      if st.bettingRound ≠ BRound.preflop then
        ({ st with
            players := st.players.map
              (fun p => { p with currentBet := 0, lastAction := none }),
            currentBet := 0, minRaise := st.bigBlind,
            lastRaiseAmount := st.bigBlind },
          [GameEvent.pot_update st.pot st.sidePots])
      else (st, ([] : List GameEvent))
    let st1 := reset.1
    let evs1 := reset.2
    let canAct := getPlayersWhoCanAct st1
    let notFolded := st1.players.filter (fun p => !p.hasFolded)
    if notFolded.length ≤ 1 ∨ canAct.length = 0 then
      (roundFlow fuel FlowCall.advanceRound st1).map (fun se => (se.1, evs1 ++ se.2))
    else
      match findFirstActor st1 with
      | none => none
      | some st2 =>
        (roundFlow fuel FlowCall.prompt st2).map (fun se => (se.1, evs1 ++ se.2))
  | fuel + 1, FlowCall.advanceRound, st =>
    let notFolded := st.players.filter (fun p => !p.hasFolded)
    if notFolded.length ≤ 1 then some (endHandFold notFolded.head? st)
    else
      let canAct := notFolded.filter (fun p => !p.isAllIn)
      match nextBettingRound st.bettingRound with
      | none => some (showdownStep st)
      | some r =>
        let st1 := { st with bettingRound := r }
        match dealCommunityCards st1 r with
        | none => none
        | some (st2, evs) =>
          if canAct.length ≤ 1 then
            (roundFlow fuel FlowCall.advanceRound st2).map
              (fun se => (se.1, evs ++ se.2))
          else
            (roundFlow fuel FlowCall.startRound st2).map
              (fun se => (se.1, evs ++ se.2))

/-- promptAction from game-engine.ts (action_on emission; the auto-fold
timer is external). -/
def promptAction (fuel : Nat) (st : GameState) :
    Option (GameState × List GameEvent) :=
  roundFlow fuel FlowCall.prompt st

/-- startBettingRound from game-engine.ts. -/
def startBettingRound (fuel : Nat) (st : GameState) :
    Option (GameState × List GameEvent) :=
  roundFlow fuel FlowCall.startRound st

/-- advanceToNextRound from game-engine.ts. -/
def advanceToNextRound (fuel : Nat) (st : GameState) :
    Option (GameState × List GameEvent) :=
  roundFlow fuel FlowCall.advanceRound st

/-- advanceAction from game-engine.ts. -/
def advanceAction (fuel : Nat) (st : GameState) :
    Option (GameState × List GameEvent) :=
  match findNextActor st with
  | none => advanceToNextRound fuel st
  | some p =>
    promptAction fuel
      { st with
        activePlayerIndex := (st.players.findIdx (fun q => q.id = p.id) : Int) }

/-- handleAction from game-engine.ts: the boolean is the source's return
value; the state and events are what the call produced (state unchanged
and no events on a rejected action). -/
def handleAction (fuel : Nat) (st : GameState) (playerId : String)
    (action : PAction) (amount : Option Int) :
    Option (Bool × GameState × List GameEvent) :=
  match handleActionStep st playerId action amount with
  | none => some (false, st, [])
  | some (st1, ev) =>
    let notFolded := st1.players.filter (fun p => !p.hasFolded)
    if notFolded.length ≤ 1 then
      let fin := endHandFold notFolded.head? st1
      some (true, fin.1, ev :: fin.2)
    else
      match advanceAction fuel st1 with
      | none => none
      | some (st2, evs) => some (true, st2, ev :: evs)

/-- startHand from game-engine.ts.  The source constructs `new HandDeck()`
(a crypto-shuffled 52-card deck); the shuffled card order is externalized
here as the `deckCards` parameter. -/
def startHand (fuel : Nat) (deckCards : List Card) (st : GameState) :
    Option (GameState × List GameEvent) :=
  if !canStartHand st then some (st, [])
  else
    let st1 := { st with
      players := st.players.filter
        (fun p => decide (p.chips > 0) && p.isConnected) }
    let st2 := { st1 with
      handInProgress := true, handNumber := st1.handNumber + 1,
      communityCards := [], pot := 0, sidePots := [], currentBet := 0,
      minRaise := st1.bigBlind, lastRaiseAmount := st1.bigBlind,
      winners := none, bettingRound := BRound.preflop,
      players := st1.players.map (fun p =>
        { p with
          holeCards := []
          currentBet := 0
          totalBetThisRound := 0
          hasFolded := !p.isConnected || decide (p.chips = 0) || p.isSittingOut
          isAllIn := false
          lastAction := none }) }
    let st3 := advanceDealer st2
    let st4 := { st3 with deck := some ⟨deckCards, 0⟩ }
    match postBlinds st4 with
    | none => none
    | some st5 =>
      let ev1 := GameEvent.hand_start st5.dealerSeatIndex st5.handNumber
        (getPublicPlayers st5)
      match dealHoleCards st5 with
      | none => none
      | some (st6, evs2) =>
        let st7 := { st6 with bettingRound := BRound.preflop }
        (startBettingRound fuel st7).map
          (fun se => (se.1, ev1 :: evs2 ++ se.2))

/-! ### Shuffle index selection (shuffleDeck in deck.ts) -/

/-- The swap-index selection of shuffleDeck at step `i`:
`j = randomValues[i] % (i + 1)` for a 32-bit word `v`. -/
def swapIndex (v : Nat) (i : Nat) : Nat := v % (i + 1)

/-- How many of the 2^32 possible source words select index `j` at
Fisher-Yates step `i`. -/
def swapIndexPreimages (i j : Nat) : Nat :=
  ((Finset.range (2 ^ 32)).filter (fun v => swapIndex v i = j)).card

/-! ### Concrete states used by the claim theorems and witnesses -/

/-- A freshly seated, connected test player. -/
def testPlayer (id : String) (seat chips : Int) : EPlayer :=
  { id := id, name := id, seatIndex := seat, chips := chips, holeCards := [],
    currentBet := 0, totalBetThisRound := 0, hasFolded := false,
    isAllIn := false, isSittingOut := false, lastAction := none,
    isConnected := true }

/-- A pre-hand table with the given roster and the engine's initial
configuration (blinds 1/2, no dealer yet). -/
def testState (ps : List EPlayer) : GameState :=
  { roomCode := "R", hostId := "h", players := ps, dealerSeatIndex := -1,
    smallBlind := 1, bigBlind := 2, buyIn := 200, handInProgress := false,
    bettingRound := BRound.preflop, communityCards := [], pot := 0,
    sidePots := [], currentBet := 0, minRaise := 2, lastRaiseAmount := 2,
    activePlayerIndex := -1, winners := none, handNumber := 0, deck := none }

/-- The chip-conservation failing hand: dealer D (200 chips), small blind
A (1 chip, all-in from the blind), big blind B (100 chips), UTG A2
(1 chip).  A2 calls all-in for its single chip, D folds, and B folds the
big-blind option.  Total chips before the hand: 302. -/
def c1Init : GameState :=
  testState [testPlayer "D" 0 200, testPlayer "A" 1 1,
    testPlayer "B" 2 100, testPlayer "A2" 3 1]

/-- Run the failing hand from startHand through hand_end; `none` if any
of the three actions were rejected or the engine failed. -/
def c1Run : Option GameState := do
  let r0 ← startHand 8 createDeck c1Init
  let r1 ← handleAction 8 r0.1 "A2" PAction.call none
  let r2 ← handleAction 8 r1.2.1 "D" PAction.fold none
  let r3 ← handleAction 8 r2.2.1 "B" PAction.fold none
  if r1.1 && r2.1 && r3.1 then some r3.2.1 else none

/-- The player roster of the failing hand as it stands at showdown:
contributions A2=1, A=1 (both all-in, not folded), B=2 (folded), D=0. -/
def c3Players : List EPlayer :=
  [{ testPlayer "D" 0 200 with
      hasFolded := true
      lastAction := some PAction.fold },
   { testPlayer "A" 1 0 with
      currentBet := 1
      totalBetThisRound := 1
      isAllIn := true },
   { testPlayer "B" 2 98 with
      currentBet := 2
      totalBetThisRound := 2
      hasFolded := true
      lastAction := some PAction.fold },
   { testPlayer "A2" 3 0 with
      currentBet := 1
      totalBetThisRound := 1
      isAllIn := true
      lastAction := some PAction.call }]

/-- Split-pot showdown with an odd pot (41) and the dealer at seat 0:
A (seat 0) and C (seat 2) both play the board straight and tie; B (seat 1)
folded after posting 1.  The tie-winner closest to the left of the dealer
is C at seat 2. -/
def c7State : GameState :=
  { testState
      [{ testPlayer "A" 0 80 with
          totalBetThisRound := 20
          holeCards := [⟨.r2, .diamonds⟩, ⟨.r3, .diamonds⟩] },
       { testPlayer "B" 1 99 with
          totalBetThisRound := 1
          hasFolded := true },
       { testPlayer "C" 2 80 with
          totalBetThisRound := 20
          holeCards := [⟨.r2, .hearts⟩, ⟨.r3, .hearts⟩] }] with
    dealerSeatIndex := 0
    handInProgress := true
    bettingRound := BRound.river
    communityCards :=
      [⟨.r10, .spades⟩, ⟨.rJ, .diamonds⟩, ⟨.rQ, .clubs⟩,
       ⟨.rK, .hearts⟩, ⟨.rA, .spades⟩]
    pot := 41 }

/-- Hero's seven cards in scenario S3: A-2 suited against the
3-4-5-9-J board. -/
def hero7 : List Card :=
  [⟨.rA, .spades⟩, ⟨.r2, .spades⟩, ⟨.r3, .diamonds⟩, ⟨.r4, .hearts⟩,
   ⟨.r5, .clubs⟩, ⟨.r9, .clubs⟩, ⟨.rJ, .hearts⟩]

/-- Villain's seven cards in scenario S3: K-K against the same board. -/
def vill7 : List Card :=
  [⟨.rK, .spades⟩, ⟨.rK, .diamonds⟩, ⟨.r3, .diamonds⟩, ⟨.r4, .hearts⟩,
   ⟨.r5, .clubs⟩, ⟨.r9, .clubs⟩, ⟨.rJ, .hearts⟩]

/-- A five-card wheel that is not a flush, for the C6 witness. -/
def wheel5 : List Card :=
  [⟨.rA, .spades⟩, ⟨.r2, .spades⟩, ⟨.r3, .diamonds⟩, ⟨.r4, .hearts⟩,
   ⟨.r5, .clubs⟩]

/-- A betting state for the raise-semantics witness: the active player
(index 0) owes 5 into a current bet of 10 with minRaise 8. -/
def c4State : GameState :=
  { testState
      [{ testPlayer "P" 0 7 with currentBet := 5 },
       { testPlayer "Q" 1 90 with currentBet := 10 }] with
    handInProgress := true
    currentBet := 10
    minRaise := 8
    lastRaiseAmount := 8
    activePlayerIndex := 0
    pot := 15 }

/-- A state for the rejected-action witness: there is a bet to call, so a
check by the active player must be refused. -/
def c5State : GameState :=
  { testState
      [{ testPlayer "P" 0 50 with currentBet := 0 },
       { testPlayer "Q" 1 90 with currentBet := 10 }] with
    handInProgress := true
    currentBet := 10
    minRaise := 8
    lastRaiseAmount := 8
    activePlayerIndex := 0
    pot := 10 }

/-- A two-player pre-deal state holding a fresh 52-card deck, for the
deck-exhaustion witness. -/
def c8State : GameState :=
  { testState [testPlayer "A" 0 100, testPlayer "B" 1 100] with
    handInProgress := true
    deck := some ⟨createDeck, 0⟩ }

/-- The dealing pipeline of one full hand: two hole cards per active
non-folded player, then burn-and-deal for flop, turn and river. -/
def dealWholeHand (st : GameState) : Option GameState := do
  let r1 ← dealHoleCards st
  let r2 ← dealCommunityCards r1.1 BRound.flop
  let r3 ← dealCommunityCards r2.1 BRound.turn
  let r4 ← dealCommunityCards r3.1 BRound.river
  some r4.1

/-! ### Arithmetic helper lemmas about list sums -/

theorem sum_map_nonneg {α : Type} {l : List α} {f : α → Int}
    (h : ∀ x ∈ l, 0 ≤ f x) : 0 ≤ (l.map f).sum := by
  induction l with
  | nil => simp
  | cons a t ih =>
    simp only [List.map_cons, List.sum_cons]
    have h1 := h a (by simp)
    have h2 := ih (fun x hx => h x (by simp [hx]))
    omega

theorem sum_map_add {α : Type} (l : List α) (f g : α → Int) :
    (l.map (fun x => f x + g x)).sum = (l.map f).sum + (l.map g).sum := by
  induction l with
  | nil => simp
  | cons a t ih => simp only [List.map_cons, List.sum_cons, ih]; omega

theorem sum_map_congr {α : Type} {l : List α} {f g : α → Int}
    (h : ∀ x ∈ l, f x = g x) : (l.map f).sum = (l.map g).sum := by
  induction l with
  | nil => simp
  | cons a t ih =>
    simp only [List.map_cons, List.sum_cons]
    rw [h a (by simp), ih (fun x hx => h x (by simp [hx]))]

theorem sum_map_le {α : Type} {l : List α} {f g : α → Int}
    (h : ∀ x ∈ l, f x ≤ g x) : (l.map f).sum ≤ (l.map g).sum := by
  induction l with
  | nil => simp
  | cons a t ih =>
    simp only [List.map_cons, List.sum_cons]
    have h1 := h a (by simp)
    have h2 := ih (fun x hx => h x (by simp [hx]))
    omega

theorem sum_map_filter_le {α : Type} {l : List α} (q : α → Bool) {f : α → Int}
    (h : ∀ x ∈ l, 0 ≤ f x) :
    ((l.filter q).map f).sum ≤ (l.map f).sum := by
  induction l with
  | nil => simp
  | cons a t ih =>
    have h1 := h a (by simp)
    have h2 := ih (fun x hx => h x (by simp [hx]))
    by_cases hq : q a
    · simp only [List.filter_cons, hq, if_pos, List.map_cons, List.sum_cons]
      omega
    · simp only [List.filter_cons, List.map_cons, List.sum_cons]
      rw [if_neg (by simp [hq])]
      omega

theorem sum_map_neg {α : Type} (l : List α) (f : α → Int) :
    (l.map (fun x => -(f x))).sum = -(l.map f).sum := by
  induction l with
  | nil => simp
  | cons a t ih => simp only [List.map_cons, List.sum_cons, ih]; omega

/-- Telescoping of the per-level loop: with an ascending level chain, the
level pots built from `prev` sum to each bettor's capped contribution up
to the last level, minus the part below `prev`. -/
theorem buildLevelPots_sum (bettors : List EPlayer) :
    ∀ (levels : List Int) (prev : Int), 0 ≤ prev →
    (∀ l ∈ levels, prev ≤ l) → levels.Sorted (· ≤ ·) →
    ((buildLevelPots bettors levels prev).map (fun sp => sp.amount)).sum =
      (bettors.map (fun p => min p.totalBetThisRound (lastD levels prev))).sum -
        (bettors.map (fun p => min p.totalBetThisRound prev)).sum := by
  intro levels
  induction levels with
  | nil => intro prev _ _ _; simp [buildLevelPots, lastD]
  | cons l rest ih =>
    intro prev hprev hlb hsort
    have hpl : prev ≤ l := hlb l (by simp)
    have hrest := (List.sorted_cons.mp hsort)
    have hs1 :
        ((buildLevelPots bettors rest l).map (fun sp => sp.amount)).sum =
          (bettors.map (fun p => min p.totalBetThisRound (lastD rest l))).sum -
            (bettors.map (fun p => min p.totalBetThisRound l)).sum :=
      ih l (by omega) (fun x hx => hrest.1 x hx) hrest.2
    have hamt :
        (bettors.map (fun p => max 0 (min p.totalBetThisRound l - prev))).sum =
          (bettors.map (fun p => min p.totalBetThisRound l)).sum -
            (bettors.map (fun p => min p.totalBetThisRound prev)).sum := by
      have hcong :
          (bettors.map (fun p => max 0 (min p.totalBetThisRound l - prev))).sum =
            (bettors.map (fun p =>
              min p.totalBetThisRound l + -(min p.totalBetThisRound prev))).sum :=
        sum_map_congr (fun p _ => by omega)
      rw [hcong, sum_map_add, sum_map_neg]
      omega
    have hnn : 0 ≤ (bettors.map
        (fun p => max 0 (min p.totalBetThisRound l - prev))).sum :=
      sum_map_nonneg (fun x _ => by omega)
    simp only [buildLevelPots, List.map_append, List.sum_append]
    rw [show lastD (l :: rest) prev = lastD rest l from rfl]
    by_cases hpos :
        (bettors.map (fun p => max 0 (min p.totalBetThisRound l - prev))).sum > 0
    · rw [if_pos hpos]
      simp only [List.map_cons, List.map_nil, List.sum_cons, List.sum_nil]
      omega
    · rw [if_neg hpos]
      simp only [List.map_nil, List.sum_nil]
      omega

theorem sum_map_zero {α : Type} {l : List α} {f : α → Int}
    (h : ∀ x ∈ l, f x = 0) : (l.map f).sum = 0 := by
  induction l with
  | nil => simp
  | cons a t ih =>
    simp only [List.map_cons, List.sum_cons, h a (by simp),
      ih (fun x hx => h x (by simp [hx]))]
    omega

/-- C2: the side pots built by calculatePots have amounts that sum exactly
to the hand's pot, the sum of all players' contributions (folded players
included). -/
theorem c2_side_pot_amounts_sum (players : List EPlayer)
    (h : ∀ p ∈ players, 0 ≤ p.totalBetThisRound) :
    ((calculatePots players
        ((players.map (fun p => p.totalBetThisRound)).sum)).map
      (fun sp => sp.amount)).sum =
      (players.map (fun p => p.totalBetThisRound)).sum := by
  simp only [calculatePots]
  split
  · simp
  · set T := (players.map (fun p => p.totalBetThisRound)).sum with hT
    set bettors := players.filter (fun p => decide (p.totalBetThisRound > 0))
      with hbettors
    set aip := List.insertionSort
      (fun a b => a.totalBetThisRound ≤ b.totalBetThisRound)
      ((players.filter (fun p => !p.hasFolded)).filter (fun p => p.isAllIn))
      with haip
    set levels := List.insertionSort (fun a b => a ≤ b)
      ((aip.map (fun p => p.totalBetThisRound)).dedup) with hlevels
    have hsorted : levels.Sorted (fun a b => a ≤ b) :=
      List.sorted_insertionSort _ _
    have hlevnn : ∀ l ∈ levels, (0 : Int) ≤ l := by
      intro l hl
      rw [hlevels, List.mem_insertionSort, List.mem_dedup] at hl
      obtain ⟨p, hp, hpe⟩ := List.mem_map.mp hl
      rw [haip, List.mem_insertionSort, List.mem_filter] at hp
      have hpl := (List.mem_filter.mp hp.1).1
      have := h p hpl
      omega
    have hproc :
        ((buildLevelPots bettors levels 0).map (fun sp => sp.amount)).sum =
          (bettors.map (fun p => min p.totalBetThisRound (lastD levels 0))).sum := by
      rw [buildLevelPots_sum bettors levels 0 (by omega) hlevnn hsorted]
      have hz : (bettors.map
          (fun p => min p.totalBetThisRound (0 : Int))).sum = 0 := by
        apply sum_map_zero
        intro p hp
        have := (List.mem_filter.mp (hbettors ▸ hp)).2
        simp only [decide_eq_true_eq] at this
        omega
      omega
    have hle :
        (bettors.map (fun p => min p.totalBetThisRound (lastD levels 0))).sum ≤ T := by
      have h1 :
          (bettors.map (fun p => min p.totalBetThisRound (lastD levels 0))).sum ≤
            (bettors.map (fun p => p.totalBetThisRound)).sum :=
        sum_map_le (fun p _ => min_le_left _ _)
      have h2 :
          (bettors.map (fun p => p.totalBetThisRound)).sum ≤
            (players.map (fun p => p.totalBetThisRound)).sum := by
        rw [hbettors]
        exact sum_map_filter_le _ h
      omega
    set levelPots := buildLevelPots bettors levels 0 with hlp
    set processed := (levelPots.map (fun sp => sp.amount)).sum with hpr
    by_cases hrem : T - processed > 0
    · rw [if_pos hrem]
      have hne : (levelPots ++
          [(⟨T - processed,
            ((players.filter (fun p => !p.hasFolded)).filter
              (fun p => decide (p.totalBetThisRound > lastD levels 0) || !p.isAllIn)).map
              (fun p => p.id)⟩ : SidePot)]).isEmpty = false := by
        simp [List.isEmpty_iff]
      rw [if_neg (by simp [hne])]
      simp only [List.map_append, List.sum_append, List.map_cons, List.map_nil,
        List.sum_cons, List.sum_nil]
      omega
    · rw [if_neg hrem]
      have hTeq : processed = T := by omega
      simp only [List.append_nil]
      split
      · simp
      · omega

/-- Witness for c2_side_pot_amounts_sum: a three-way pot with one short
all-in (levels 10 and 25, one folded contributor). -/
theorem c2_side_pot_amounts_sum_witness :
    (∀ p ∈
      [{ testPlayer "X" 0 0 with totalBetThisRound := 10, isAllIn := true },
       { testPlayer "Y" 1 40 with totalBetThisRound := 25 },
       { testPlayer "Z" 2 0 with totalBetThisRound := 25, hasFolded := true }],
      0 ≤ p.totalBetThisRound) ∧
    ((calculatePots
        [{ testPlayer "X" 0 0 with totalBetThisRound := 10, isAllIn := true },
         { testPlayer "Y" 1 40 with totalBetThisRound := 25 },
         { testPlayer "Z" 2 0 with totalBetThisRound := 25, hasFolded := true }]
        (([{ testPlayer "X" 0 0 with totalBetThisRound := 10, isAllIn := true },
           { testPlayer "Y" 1 40 with totalBetThisRound := 25 },
           { testPlayer "Z" 2 0 with totalBetThisRound := 25, hasFolded := true }].map
            (fun p => p.totalBetThisRound)).sum)).map
      (fun sp => sp.amount)).sum =
      (([{ testPlayer "X" 0 0 with totalBetThisRound := 10, isAllIn := true },
         { testPlayer "Y" 1 40 with totalBetThisRound := 25 },
         { testPlayer "Z" 2 0 with totalBetThisRound := 25, hasFolded := true }].map
          (fun p => p.totalBetThisRound)).sum) :=
  ⟨by decide, c2_side_pot_amounts_sum _ (by decide)⟩

/-- C1 (code bug): the failing hand c1Run is a legal hand — startHand
succeeds and all three actions (UTG all-in call, dealer fold, big-blind
fold) are accepted — yet the 302 chips on the table at the start become
301 at hand_end: the remainder side pot of 1 chip has an empty eligible
set and is never paid out at showdown. -/
theorem c1_chip_conservation_fails :
    (c1Run.map (fun st => (st.players.map (fun p => p.chips)).sum) = some 301) ∧
    (c1Init.players.map (fun p => p.chips)).sum = 302 ∧
    c1Run.map (fun st => (st.players.map (fun p => p.chips)).sum) ≠
      some ((c1Init.players.map (fun p => p.chips)).sum) := by
  refine ⟨by decide, by decide, ?_⟩
  decide

/-- C3 (code bug): on the showdown roster of the failing hand (two
non-folded all-ins at level 1 and a folded big blind at 2, pot 4),
calculatePots emits a final remainder pot of amount 1 whose eligibility
set is empty, contradicting the amount-nonzero-iff-eligible-non-empty
invariant. -/
theorem c3_empty_eligible_positive_pot :
    (calculatePots c3Players 4).map (fun sp => (sp.amount, sp.eligiblePlayerIds)) =
      [(3, ["A", "A2"]), (1, [])] ∧
    ∃ sp ∈ calculatePots c3Players 4, sp.amount ≠ 0 ∧ sp.eligiblePlayerIds = [] := by
  refine ⟨by decide, ?_⟩
  refine ⟨⟨1, []⟩, by decide, by decide, rfl⟩

/-- C10: startHand with an unmet precondition is atomic — when
canStartHand is false the call returns with the state exactly unchanged
and no events emitted (no purge, no dealer advance, no blinds, no deck,
no hand-number increment). -/
theorem c10_start_hand_noop (fuel : Nat) (deckCards : List Card)
    (st : GameState) (h : canStartHand st = false) :
    startHand fuel deckCards st = some (st, []) := by
  unfold startHand
  rw [h]
  simp

/-- Witness for c10_start_hand_noop: an empty table cannot start a hand
and startHand leaves it untouched. -/
theorem c10_start_hand_noop_witness :
    canStartHand (testState []) = false ∧
    startHand 4 createDeck (testState []) = some (testState [], []) :=
  ⟨by decide, c10_start_hand_noop 4 createDeck (testState []) (by decide)⟩

/-- C7 counterexample: splitting the odd pot of 41 between the tied
winners A (seat 0) and C (seat 2) with the dealer at seat 0, the odd chip
goes to A — the first winner in evaluation (players-array) order — and not
to C, the tie-winning seat closest to the left of the dealer. -/
theorem c7_odd_chip_counterexample :
    (showdownStep c7State).1.players.map (fun p => (p.id, p.chips)) =
      [("A", 101), ("B", 99), ("C", 100)] ∧
    c7State.dealerSeatIndex = 0 ∧
    ¬ ((showdownStep c7State).1.players.map (fun p => (p.id, p.chips)) =
      [("A", 100), ("B", 99), ("C", 101)]) := by
  refine ⟨by decide, by decide, by decide⟩

theorem sum_range_map_const_head (c r : Int) :
    ∀ k, 1 ≤ k →
      ((List.range k).map (fun i => c + if i = 0 then r else 0)).sum =
        (k : Int) * c + r := by
  intro k
  induction k with
  | zero => omega
  | succ m ih =>
    intro _
    by_cases hm : m = 0
    · subst hm
      simp [show List.range 1 = [0] from rfl]
    · rw [List.range_succ, List.map_append, List.sum_append]
      rw [ih (by omega)]
      simp only [List.map_cons, List.map_nil, List.sum_cons, List.sum_nil,
        if_neg hm]
      push_cast
      ring

/-- C7 amended: showdown's split loop gives every winner the integer
share floor(amount / n) and adds the whole remainder
`amount - floor(amount / n) * n` to the winner at index 0 — the first
tied winner in the code's evaluation order (players-array order), not the
seat left of the dealer — and the awards always sum to the pot amount. -/
theorem c7_split_amended (amount : Int) (n : Nat) (hn : 1 ≤ n) :
    (((List.range n).map (winAmountAt amount n)).sum = amount) ∧
    winAmountAt amount n 0 =
      Int.fdiv amount (n : Int) + (amount - Int.fdiv amount (n : Int) * (n : Int)) ∧
    (∀ i, 1 ≤ i → winAmountAt amount n i = Int.fdiv amount (n : Int)) := by
  refine ⟨?_, ?_, ?_⟩
  · have : ((List.range n).map (winAmountAt amount n)).sum =
        ((List.range n).map (fun i => Int.fdiv amount (n : Int) +
          if i = 0 then amount - Int.fdiv amount (n : Int) * (n : Int) else 0)).sum := by
      apply sum_map_congr
      intro i _
      simp [winAmountAt]
    rw [this, sum_range_map_const_head _ _ n hn]
    ring
  · simp [winAmountAt]
  · intro i hi
    have hne : i ≠ 0 := by omega
    simp [winAmountAt, hne]

/-- Witness for c7_split_amended at the S5 pot of 41 split two ways:
awards sum to 41, the first winner receives 21 and the second 20. -/
theorem c7_split_amended_witness :
    (1 ≤ 2) ∧
    (((List.range 2).map (winAmountAt 41 2)).sum = 41) ∧
    winAmountAt 41 2 0 = 21 ∧ winAmountAt 41 2 1 = 20 := by
  have h := c7_split_amended 41 2 (by omega)
  refine ⟨by omega, h.1, ?_, ?_⟩
  · rw [h.2.1]; decide
  · rw [h.2.2 1 (by omega)]; decide

theorem card_filter_mod3_range (j : Nat) (hj : j < 3) :
    ∀ N, ((Finset.range N).filter (fun v => v % 3 = j)).card = (N + 2 - j) / 3 := by
  intro N
  induction N with
  | zero => simp; omega
  | succ n ih =>
    rw [Finset.range_succ, Finset.filter_insert]
    by_cases hc : n % 3 = j
    · rw [if_pos hc, Finset.card_insert_of_not_mem (by simp), ih]
      omega
    · rw [if_neg hc, ih]
      omega

/-- C9 (code bug): shuffleDeck selects the swap index by plain modulo
(`randomValues[i] % (i + 1)`), which is biased.  At step i = 2 (three
candidate indices) index 0 is hit by 1431655766 of the 2^32 possible
source words while indices 1 and 2 are hit by 1431655765 each, so the
selection does not give every index in [0, i] the same number of
preimages — despite the source comment calling it an unbiased modulo and
the spec requiring rejection sampling. -/
theorem c9_swap_index_modulo_bias :
    swapIndexPreimages 2 0 = 1431655766 ∧
    swapIndexPreimages 2 1 = 1431655765 ∧
    swapIndexPreimages 2 2 = 1431655765 ∧
    swapIndexPreimages 2 0 ≠ swapIndexPreimages 2 1 := by
  have h0 := card_filter_mod3_range 0 (by omega) (2 ^ 32)
  have h1 := card_filter_mod3_range 1 (by omega) (2 ^ 32)
  have h2 := card_filter_mod3_range 2 (by omega) (2 ^ 32)
  have hs : ∀ j, swapIndexPreimages 2 j =
      ((Finset.range (2 ^ 32)).filter (fun v => v % 3 = j)).card := by
    intro j
    unfold swapIndexPreimages swapIndex
    norm_num
  rw [hs 0, hs 1, hs 2, h0, h1, h2]
  norm_num

theorem dealCard_ok (d : HandDeckState) (h : d.position < d.cards.length) :
    ∃ c, dealCard d = some (c, ⟨d.cards, d.position + 1⟩) := by
  unfold dealCard
  rw [dif_pos h]
  exact ⟨_, rfl⟩

theorem dealMultipleCards_ok :
    ∀ (n : Nat) (d : HandDeckState), d.position + n ≤ d.cards.length →
    ∃ cs, dealMultipleCards d n = some (cs, ⟨d.cards, d.position + n⟩) := by
  intro n
  induction n with
  | zero =>
    intro d _
    exact ⟨[], by simp [dealMultipleCards]⟩
  | succ m ih =>
    intro d h
    obtain ⟨c, hc⟩ := dealCard_ok d (by omega)
    obtain ⟨cs, hcs⟩ := ih ⟨d.cards, d.position + 1⟩ (by simp; omega)
    simp only at hcs
    rw [show d.position + 1 + m = d.position + (m + 1) from by omega] at hcs
    refine ⟨c :: cs, ?_⟩
    simp only [dealMultipleCards, hc, hcs]

theorem burnCard_ok (d : HandDeckState) (h : d.position < d.cards.length) :
    burnCard d = some ⟨d.cards, d.position + 1⟩ := by
  obtain ⟨c, hc⟩ := dealCard_ok d h
  simp [burnCard, hc]

theorem dealCommunityCards_flop_ok (st : GameState) (d : HandDeckState)
    (hd : st.deck = some d) (h : d.position + 4 ≤ d.cards.length) :
    ∃ st1 evs, dealCommunityCards st BRound.flop = some (st1, evs) ∧
      st1.deck = some ⟨d.cards, d.position + 4⟩ := by
  obtain ⟨cs, hcs⟩ := dealMultipleCards_ok 3 ⟨d.cards, d.position + 1⟩ (by simp; omega)
  simp only at hcs
  rw [show d.position + 1 + 3 = d.position + 4 from by omega] at hcs
  simp only [dealCommunityCards, hd, burnCard_ok d (by omega), hcs]
  exact ⟨_, _, rfl, rfl⟩

theorem dealCommunityCards_one_ok (st : GameState) (d : HandDeckState)
    (r : BRound) (hr : r = BRound.turn ∨ r = BRound.river)
    (hd : st.deck = some d) (h : d.position + 2 ≤ d.cards.length) :
    ∃ st1 evs, dealCommunityCards st r = some (st1, evs) ∧
      st1.deck = some ⟨d.cards, d.position + 2⟩ := by
  obtain ⟨cs, hcs⟩ := dealMultipleCards_ok 1 ⟨d.cards, d.position + 1⟩ (by simp; omega)
  simp only at hcs
  rw [show d.position + 1 + 1 = d.position + 2 from by omega] at hcs
  rcases hr with hr | hr <;>
    (subst hr
     simp only [dealCommunityCards, hd, burnCard_ok d (by omega), hcs]
     exact ⟨_, _, rfl, rfl⟩)

theorem dealHoleCardsGo_ok :
    ∀ (ps : List EPlayer) (st : GameState) (d : HandDeckState),
    st.deck = some d →
    d.position + 2 * (ps.filter (fun p => !p.hasFolded)).length ≤ d.cards.length →
    ∃ st1 evs, dealHoleCardsGo ps st = some (st1, evs) ∧
      st1.deck =
        some ⟨d.cards,
          d.position + 2 * (ps.filter (fun p => !p.hasFolded)).length⟩ := by
  intro ps
  induction ps with
  | nil =>
    intro st d hd _
    exact ⟨st, [], rfl, by simpa using hd⟩
  | cons p rest ih =>
    intro st d hd hb
    by_cases hf : p.hasFolded
    · have hcount :
          ((p :: rest).filter (fun q => !q.hasFolded)).length =
            (rest.filter (fun q => !q.hasFolded)).length := by
        simp [List.filter_cons, hf]
      rw [hcount] at hb ⊢
      obtain ⟨st1, evs, h1, h2⟩ := ih st d hd hb
      refine ⟨st1, evs, ?_, h2⟩
      simpa [dealHoleCardsGo, hf] using h1
    · have hcount :
          ((p :: rest).filter (fun q => !q.hasFolded)).length =
            (rest.filter (fun q => !q.hasFolded)).length + 1 := by
        simp [List.filter_cons, hf]
      rw [hcount] at hb ⊢
      obtain ⟨cs, hcs⟩ := dealMultipleCards_ok 2 d (by omega)
      obtain ⟨st2, evs, h1, h2⟩ := ih
        { st with
          deck := some ⟨d.cards, d.position + 2⟩
          players := updatePlayer st.players p.id
            (fun q => { q with holeCards := cs }) }
        ⟨d.cards, d.position + 2⟩ rfl (by simp; omega)
      refine ⟨st2, GameEvent.hole_cards p.id cs :: evs, ?_, ?_⟩
      · simp only [dealHoleCardsGo, hf, hd, hcs, h1]
        rfl
      · rw [h2]
        simp only
        rw [show d.position + 2 + 2 * (rest.filter (fun q => !q.hasFolded)).length =
          d.position + 2 * ((rest.filter (fun q => !q.hasFolded)).length + 1) from
          by omega]

/-- C8 counterexample: a full 6-player hand draws exactly 20 cards (12
hole cards plus three burns and five community cards), not at most 19 as
claimed — the hand burns once before each of flop, turn and river. -/
theorem c8_twenty_cards_counterexample :
    (dealWholeHand
        { testState [testPlayer "P1" 0 100, testPlayer "P2" 1 100,
            testPlayer "P3" 2 100, testPlayer "P4" 3 100,
            testPlayer "P5" 4 100, testPlayer "P6" 5 100] with
          handInProgress := true
          deck := some ⟨createDeck, 0⟩ }).map
      (fun s => s.deck.map (fun dd => dd.position)) = some (some 20) ∧
    ¬ ((20 : Nat) ≤ 19) :=
  ⟨by decide, by decide⟩

/-- C8 amended: with at most 6 seated players a hand draws at most 20
cards from the 52-card deck (2 hole cards per player, one burn before
each of the three community deals, and 5 community cards), so deal()
never takes its deck-exhausted error branch during a hand. -/
theorem c8_deal_never_exhausts (st : GameState) (d : HandDeckState)
    (hd : st.deck = some d) (hp : d.position = 0) (hc : d.cards.length = 52)
    (hn : st.players.length ≤ 6) :
    ∃ st4, dealWholeHand st = some st4 ∧
      ∃ d4, st4.deck = some d4 ∧ d4.cards = d.cards ∧ d4.position ≤ 20 := by
  have hk : ((getActivePlayers st).filter (fun p => !p.hasFolded)).length ≤ 6 := by
    have h1 := List.length_filter_le (fun p => !p.hasFolded) (getActivePlayers st)
    have h2 := List.length_filter_le
      (fun p => !p.isSittingOut && decide (p.chips ≥ 0) && p.isConnected) st.players
    simp only [getActivePlayers] at h1 ⊢
    omega
  set k := ((getActivePlayers st).filter (fun p => !p.hasFolded)).length with hkdef
  obtain ⟨st1, e1, h1, hd1⟩ :=
    dealHoleCardsGo_ok (getActivePlayers st) st d hd (by omega)
  obtain ⟨st2, e2, h2, hd2⟩ :=
    dealCommunityCards_flop_ok st1 ⟨d.cards, d.position + 2 * k⟩ (by rw [hd1])
      (by simp; omega)
  simp only at hd2
  obtain ⟨st3, e3, h3, hd3⟩ :=
    dealCommunityCards_one_ok st2 ⟨d.cards, d.position + 2 * k + 4⟩ BRound.turn
      (Or.inl rfl) (by rw [hd2]) (by simp; omega)
  simp only at hd3
  obtain ⟨st4, e4, h4, hd4⟩ :=
    dealCommunityCards_one_ok st3 ⟨d.cards, d.position + 2 * k + 4 + 2⟩ BRound.river
      (Or.inr rfl) (by rw [hd3]) (by simp; omega)
  simp only at hd4
  refine ⟨st4, ?_, ⟨d.cards, d.position + 2 * k + 4 + 2 + 2⟩, by rw [hd4], rfl,
    show d.position + 2 * k + 4 + 2 + 2 ≤ 20 from by omega⟩
  simp only [dealWholeHand, dealHoleCards, h1, h2, h3, h4, Option.bind_eq_bind,
    Option.some_bind]

/-- Witness for c8_deal_never_exhausts: the two-player table c8State with
a fresh 52-card deck deals the whole hand without exhausting the deck. -/
theorem c8_deal_never_exhausts_witness :
    c8State.players.length ≤ 6 ∧
    ∃ st4, dealWholeHand c8State = some st4 ∧
      ∃ d4, st4.deck = some d4 ∧ d4.cards = createDeck ∧ d4.position ≤ 20 :=
  ⟨by decide,
    c8_deal_never_exhausts c8State ⟨createDeck, 0⟩ rfl rfl (by decide) (by decide)⟩

theorem raiseAmountOf_le_chips (a chips : Int) (h : 0 < chips) :
    raiseAmountOf PAction.raise (some a) chips ≤ chips := by
  unfold raiseAmountOf
  rw [if_neg (by simp)]
  split <;> omega

/-- C4: a raise by the active player is accepted iff
raise_over = (current_bet_of_player + raise_amount) - table_current_bet is
at least min_raise, or the raise is the player's whole stack; a full legal
raise rewrites min_raise and last_raise_amount to raise_over, while an
accepted short all-in leaves both untouched. -/
theorem c4_raise_semantics (st : GameState) (pid : String) (a : Int)
    (player q : EPlayer)
    (hfind : st.players.find? (fun p => p.id = pid) = some player)
    (hact : getActivePlayer st = some q) (hid : q.id = pid)
    (hchips : 0 < player.chips) (hmin : 0 < st.minRaise) :
    ((handleActionStep st pid PAction.raise (some a)).isSome ↔
      (st.minRaise ≤
          player.currentBet + raiseAmountOf PAction.raise (some a) player.chips -
            st.currentBet ∨
        raiseAmountOf PAction.raise (some a) player.chips = player.chips)) ∧
    (∀ st2 ev, handleActionStep st pid PAction.raise (some a) = some (st2, ev) →
      (st.minRaise ≤
          player.currentBet + raiseAmountOf PAction.raise (some a) player.chips -
            st.currentBet →
        st2.minRaise =
          player.currentBet + raiseAmountOf PAction.raise (some a) player.chips -
            st.currentBet ∧
        st2.lastRaiseAmount =
          player.currentBet + raiseAmountOf PAction.raise (some a) player.chips -
            st.currentBet) ∧
      (player.currentBet + raiseAmountOf PAction.raise (some a) player.chips -
          st.currentBet < st.minRaise →
        st2.minRaise = st.minRaise ∧
        st2.lastRaiseAmount = st.lastRaiseAmount)) := by
  have hle := raiseAmountOf_le_chips a player.chips hchips
  have hnid : ¬ (q.id ≠ pid) := by simp [hid]
  simp only [handleActionStep, hfind, hact, if_neg hnid]
  unfold applyRaise
  set rA := raiseAmountOf PAction.raise (some a) player.chips with hrA
  by_cases hrej :
      rA < st.currentBet + st.minRaise - player.currentBet ∧ rA < player.chips
  · rw [if_pos hrej]
    constructor
    · simp only [Option.isSome_none, Bool.false_eq_true, false_iff]
      omega
    · intro st2 ev h
      exact absurd h (by simp)
  · rw [if_neg hrej]
    constructor
    · simp only [Option.isSome_some, true_iff]
      omega
    · intro st2 ev h
      simp only [Option.some.injEq, Prod.mk.injEq] at h
      obtain ⟨h1, -⟩ := h
      subst h1
      constructor
      · intro hfull
        rw [if_pos (by constructor <;> omega)]
        exact ⟨rfl, rfl⟩
      · intro hshort
        rw [if_neg (by omega)]
        exact ⟨rfl, rfl⟩

/-- Witness for c4_raise_semantics: in c4State (current bet 10, minRaise
8) the active player P (5 already in, 7 behind) moves all-in for 7;
raise_over = 5 + 7 - 10 = 2 is below minRaise, yet the raise is accepted
because it is the whole stack. -/
theorem c4_raise_semantics_witness :
    (0 : Int) < ({ testPlayer "P" 0 7 with currentBet := 5 } : EPlayer).chips ∧
    (0 : Int) < c4State.minRaise ∧
    ((handleActionStep c4State "P" PAction.raise (some 7)).isSome ↔
      (c4State.minRaise ≤
          ({ testPlayer "P" 0 7 with currentBet := 5 } : EPlayer).currentBet +
            raiseAmountOf PAction.raise (some 7)
              ({ testPlayer "P" 0 7 with currentBet := 5 } : EPlayer).chips -
            c4State.currentBet ∨
        raiseAmountOf PAction.raise (some 7)
            ({ testPlayer "P" 0 7 with currentBet := 5 } : EPlayer).chips =
          ({ testPlayer "P" 0 7 with currentBet := 5 } : EPlayer).chips)) :=
  ⟨by decide, by decide,
    (c4_raise_semantics c4State "P" 7
      { testPlayer "P" 0 7 with currentBet := 5 }
      { testPlayer "P" 0 7 with currentBet := 5 }
      (by decide) (by decide) rfl (by decide) (by decide)).1⟩

/-- C5: rejected actions are no-ops.  Whenever the requestor is unknown
or not the active player, or the action is a check against a positive
amount to call, or a raise below the minimum that is not the player's
whole stack, or an unrecognized action, handleAction returns false with
the game state exactly unchanged and no event emitted. -/
theorem c5_rejected_action_noop (fuel : Nat) (st : GameState) (pid : String)
    (action : PAction) (amount : Option Int)
    (h : st.players.find? (fun p => p.id = pid) = none ∨
      getActivePlayer st = none ∨
      (∃ q, getActivePlayer st = some q ∧ q.id ≠ pid) ∨
      (action = PAction.check ∧
        ∃ p, st.players.find? (fun p1 => p1.id = pid) = some p ∧
          st.currentBet - p.currentBet > 0) ∨
      (action = PAction.raise ∧
        ∃ p, st.players.find? (fun p1 => p1.id = pid) = some p ∧
          raiseAmountOf PAction.raise amount p.chips <
            st.currentBet + st.minRaise - p.currentBet ∧
          raiseAmountOf PAction.raise amount p.chips < p.chips) ∨
      (∃ s, action = PAction.unknown s)) :
    handleAction fuel st pid action amount = some (false, st, []) := by
  have hstep : handleActionStep st pid action amount = none := by
    rcases h with h | h | ⟨q, hq, hne⟩ | ⟨ha, p, hp, hc⟩ | ⟨ha, p, hp, h1, h2⟩ |
      ⟨s, ha⟩
    · simp [handleActionStep, h]
    · rcases hfind : st.players.find? (fun p => p.id = pid) with _ | p
      · simp [handleActionStep, hfind]
      · simp [handleActionStep, hfind, h]
    · rcases hfind : st.players.find? (fun p => p.id = pid) with _ | p
      · simp [handleActionStep, hfind]
      · simp only [handleActionStep, hfind, hq]
        rw [if_pos hne]
    · subst ha
      rcases hact : getActivePlayer st with _ | q
      · simp [handleActionStep, hp, hact]
      · by_cases hne : q.id ≠ pid
        · simp only [handleActionStep, hp, hact]
          rw [if_pos hne]
        · simp only [handleActionStep, hp, hact, if_neg hne]
          rw [if_pos hc]
    · subst ha
      rcases hact : getActivePlayer st with _ | q
      · simp [handleActionStep, hp, hact]
      · by_cases hne : q.id ≠ pid
        · simp only [handleActionStep, hp, hact]
          rw [if_pos hne]
        · simp only [handleActionStep, hp, hact, if_neg hne]
          unfold applyRaise
          rw [if_pos ⟨h1, h2⟩]
    · subst ha
      rcases hfind : st.players.find? (fun p => p.id = pid) with _ | p
      · simp [handleActionStep, hfind]
      · rcases hact : getActivePlayer st with _ | q
        · simp [handleActionStep, hfind, hact]
        · by_cases hne : q.id ≠ pid
          · simp only [handleActionStep, hfind, hact]
            rw [if_pos hne]
          · simp [handleActionStep, hfind, hact, if_neg hne]
  simp [handleAction, hstep]

/-- Witness for c5_rejected_action_noop: in c5State the active player P
owes 10; a check is rejected and the state and event stream are
untouched. -/
theorem c5_rejected_action_noop_witness :
    (c5State.currentBet -
        ({ testPlayer "P" 0 50 with currentBet := 0 } : EPlayer).currentBet > 0) ∧
    handleAction 4 c5State "P" PAction.check none = some (false, c5State, []) :=
  ⟨by decide,
    c5_rejected_action_noop 4 c5State "P" PAction.check none
      (Or.inr (Or.inr (Or.inr (Or.inl
        ⟨rfl, { testPlayer "P" 0 50 with currentBet := 0 },
          by decide, by decide⟩))))⟩

/-- C6: the evaluator ranks the wheel as a 5-high straight — every
five-card hand whose descending values are exactly [14, 5, 4, 3, 2] and
which is not a flush evaluates to category Straight with tiebreak vector
[5] — and in scenario S3 (hero A-2 suited, villain K-K, board 3-4-5-9-J)
the hero's best hand is the 5-high straight, the villain's is a pair of
kings, and compareHands ranks the hero strictly higher. -/
theorem c6_wheel_straight (cards : List Card)
    (hv : valuesOf cards = [14, 5, 4, 3, 2])
    (hf : isFlushOf cards = false) :
    ((evaluateFiveCards cards).rank = Straight ∧
      (evaluateFiveCards cards).values = [5]) ∧
    ((evaluateBestHand hero7).map (fun e => (e.rank, e.values)) =
        some (Straight, [5]) ∧
      (evaluateBestHand vill7).map (fun e => (e.rank, e.values)) =
        some (OnePair, [13, 11, 9, 5]) ∧
      compareHands ((evaluateBestHand hero7).getD ⟨0, [], []⟩)
        ((evaluateBestHand vill7).getD ⟨0, [], []⟩) > 0) := by
  have hbody : evaluateFiveCards cards = ⟨Straight, [5], sortedDesc cards⟩ := by
    simp only [evaluateFiveCards]
    rw [hv, hf]
    rfl
  exact ⟨by rw [hbody]; exact ⟨rfl, rfl⟩, by refine ⟨by decide, by decide, by decide⟩⟩

/-- Witness for c6_wheel_straight: the concrete non-flush wheel wheel5
has exactly the descending values [14, 5, 4, 3, 2] and evaluates to the
5-high straight. -/
theorem c6_wheel_straight_witness :
    valuesOf wheel5 = [14, 5, 4, 3, 2] ∧
    isFlushOf wheel5 = false ∧
    ((evaluateFiveCards wheel5).rank = Straight ∧
      (evaluateFiveCards wheel5).values = [5]) :=
  ⟨by decide, by decide,
    (c6_wheel_straight wheel5 (by decide) (by decide)).1⟩
